import Mathlib

/-!
Verification of the search-and-classification pipeline of the
document-analytics platform (src/classifier.py and src/search_engine.py).

The Python code is shallowly embedded: strings are `String`/`List Char`,
Python floats arising from keyword scores are exact rationals `ℚ` (all
scores are finite dyadic values, so `ℚ` models them without rounding),
document tuples become the structure `Doc` (positional fields 0..3 of the
store's tuple), and the one fallible operation (classification, whose
score normalisation divides by a keyword-list length) returns `Option`.
Character classes (`\w`, `str.isspace`, `str.lower`) are modelled at
ASCII granularity, which covers every keyword table entry and every
literal the claims mention.
-/

/-- Python's `str.isspace` characters that `str.strip()` and `str.split()`
treat as whitespace (ASCII range). -/
def pyIsSpace (c : Char) : Bool :=
  c = ' ' || c = '\t' || c = '\n' || c = Char.ofNat 11 || c = Char.ofNat 12 || c = '\r'

/-- Python's `str.strip()` on a character list: drop leading and trailing
whitespace. -/
def pyStrip (l : List Char) : List Char :=
  ((l.dropWhile pyIsSpace).reverse.dropWhile pyIsSpace).reverse

/-- Python's `str.lower()` on a character list (ASCII case folding). -/
def pyLowerL (l : List Char) : List Char := l.map Char.toLower

/-- Python's `str.lower()` on a `String`. -/
def pyLowerS (s : String) : String := String.mk (pyLowerL s.toList)

/-- A regex `\w` word character: alphanumeric or underscore. -/
def isWordChar (c : Char) : Bool := c.isAlphanum || c = '_'

/-- Maximal runs of characters satisfying `p`; characters outside `p` act as
separators and are dropped.  `runsOf isWordChar` is `re.findall(r'\b\w+\b', s)`
and `runsOf (fun c => !pyIsSpace c)` is `str.split()`. -/
def runsOf (p : Char → Bool) : List Char → List (List Char)
  | [] => []
  | c :: t =>
    if p c then
      match t with
      | [] => [[c]]
      | d :: _ =>
        if p d then
          match runsOf p t with
          | [] => [[c]]
          | w :: rest => (c :: w) :: rest
        else [c] :: runsOf p t
    else runsOf p t

/-- `re.findall(r'\b\w+\b', s)`: the word tokens of `s`. -/
def wordTokens (l : List Char) : List (List Char) := runsOf isWordChar l

/-- `str.split()`: whitespace-separated fields. -/
def splitWs (l : List Char) : List (List Char) := runsOf (fun c => !pyIsSpace c) l

/-- Character comparison used in regex matching: exact when `fold = false`,
case-folded (`re.IGNORECASE`) when `fold = true`. -/
def chFold (fold : Bool) (a b : Char) : Bool :=
  if fold then a.toLower = b.toLower else a = b

/-- Does `pat` match at the start of `s`, character-by-character, under the
given case-folding mode?  (`str.startswith` is the `fold = false` case.) -/
def leadMatchFold (fold : Bool) : List Char → List Char → Bool
  | [], _ => true
  | _ :: _, [] => false
  | a :: as, b :: bs => chFold fold a b && leadMatchFold fold as bs

theorem leadMatchFold_length {fold : Bool} :
    ∀ {pat s : List Char}, leadMatchFold fold pat s = true → pat.length ≤ s.length := by
  intro pat
  induction pat with
  | nil => intro s _; exact Nat.zero_le _
  | cons a as ih =>
    intro s h
    cases s with
    | nil => simp [leadMatchFold] at h
    | cons b bs =>
      simp only [leadMatchFold, Bool.and_eq_true] at h
      simpa [List.length_cons, Nat.succ_le_succ_iff] using ih h.2

/-- Python's `str.count(pat)`: number of non-overlapping occurrences of `pat`
in `s`, scanning left to right (`len(s) + 1` for the empty pattern, as in
Python). -/
def countOcc (pat : List Char) (s : List Char) : Nat :=
  if hp : pat = [] then s.length + 1
  else
    match s with
    | [] => 0
    | c :: rest =>
      if h : leadMatchFold false pat (c :: rest) = true then
        1 + countOcc pat ((c :: rest).drop pat.length)
      else
        countOcc pat rest
termination_by s.length
decreasing_by
  · have hlen := leadMatchFold_length h
    have hpos : 0 < pat.length := by
      cases pat with
      | nil => exact absurd rfl hp
      | cons x xs => simp
    simp only [List.length_drop]
    simp only [List.length_cons] at hlen ⊢
    omega
  · simp

/-- Lexicographic comparison of character lists by code point, Python's
string `<=`. -/
def strLe (a b : List Char) : Bool :=
  match a, b with
  | [], _ => true
  | _ :: _, [] => false
  | x :: xs, y :: ys => if x = y then strLe xs ys else decide (x.toNat < y.toNat)

/-- Insert into a `strLe`-sorted list, keeping it sorted. -/
def insertSorted (w : List Char) : List (List Char) → List (List Char)
  | [] => [w]
  | x :: xs => if strLe w x then w :: x :: xs else x :: insertSorted w xs

/-- Sorting used to model Python's `sorted` on distinct strings. -/
def sortWords (l : List (List Char)) : List (List Char) := l.foldr insertSorted []

/-! ## The keyword classifier (src/classifier.py) -/

/-- The classifier's mutable configuration: `self.categories` and the
insertion-ordered mapping `self.category_keywords`, modelled as an
association list to keep Python's dict iteration (registration) order. -/
structure ClassifierState where
  categories : List String
  categoryKeywords : List (String × List String)
deriving DecidableEq

def builtinCategories : List String :=
  ["Business", "Technical", "Legal", "Medical", "Academic", "Financial", "Marketing", "Research", "Report", "Scientific", "Educational", "Government", "News", "Entertainment", "Sports", "Travel", "Food", "Technology", "Healthcare", "Real Estate", "Insurance", "Banking", "Construction", "Manufacturing", "Retail", "Transportation", "Energy", "Environmental", "Social Media", "Web Content", "Blog", "Tutorial", "Manual", "Policy", "Other"]

def builtinKeywords : List (String × List String) :=
  [
   ("Business",
    ["business", "company", "corporation", "enterprise", "organization", "management", "strategy", "marketing", "sales", "revenue", "profit", "customer", "client", "market", "industry", "competition", "planning", "proposal", "contract", "agreement", "partnership", "merger", "acquisition"]),
   ("Technical",
    ["technical", "technology", "software", "hardware", "system", "computer", "programming", "code", "development", "engineering", "algorithm", "database", "network", "security", "infrastructure", "architecture", "specification", "documentation", "manual", "api", "framework", "protocol"]),
   ("Legal",
    ["legal", "law", "court", "judge", "lawyer", "attorney", "litigation", "contract", "agreement", "terms", "conditions", "clause", "regulation", "compliance", "statute", "legislation", "judicial", "plaintiff", "defendant", "evidence", "testimony", "verdict", "settlement", "damages", "liability"]),
   ("Medical",
    ["medical", "health", "healthcare", "hospital", "patient", "doctor", "physician", "nurse", "treatment", "diagnosis", "therapy", "medication", "drug", "disease", "symptom", "clinical", "pharmaceutical", "surgery", "anatomy", "physiology", "pathology", "radiology", "laboratory", "vaccine"]),
   ("Academic",
    ["academic", "research", "study", "university", "college", "education", "student", "professor", "faculty", "curriculum", "course", "degree", "thesis", "dissertation", "journal", "publication", "conference", "methodology", "analysis", "experiment", "hypothesis", "theory", "literature"]),
   ("Financial",
    ["financial", "finance", "money", "investment", "banking", "credit", "loan", "debt", "budget", "accounting", "audit", "tax", "income", "expense", "asset", "liability", "equity", "portfolio", "stock", "bond", "securities", "insurance", "pension", "fund", "capital"]),
   ("Marketing",
    ["marketing", "advertising", "promotion", "campaign", "brand", "branding", "customer", "consumer", "target", "audience", "demographic", "segment", "product", "service", "pricing", "distribution", "channel", "retail", "digital", "social", "media", "content", "seo", "analytics", "conversion"]),
   ("Research",
    ["research", "study", "analysis", "investigation", "survey", "experiment", "data", "results", "findings", "conclusion", "methodology", "sample", "hypothesis", "statistical", "quantitative", "qualitative", "empirical", "observation", "measurement", "correlation", "regression", "significance"]),
   ("Report",
    ["report", "summary", "overview", "executive", "quarterly", "annual", "progress", "status", "update", "performance", "metrics", "kpi", "dashboard", "benchmark", "evaluation", "assessment", "review", "recommendation", "conclusion", "action", "plan", "forecast", "projection"]),
   ("Scientific",
    ["research", "experiment", "hypothesis", "methodology", "data", "analysis", "results", "conclusion", "peer", "review", "publication", "journal", "laboratory", "study", "observation", "measurement", "theory", "model", "validation", "statistical", "significance", "correlation", "causation"]),
   ("Educational",
    ["education", "learning", "teaching", "curriculum", "lesson", "course", "training", "workshop", "seminar", "tutorial", "instruction", "guide", "knowledge", "skill", "competency", "assessment", "evaluation", "grade", "student", "teacher", "instructor", "professor", "classroom", "online"]),
   ("Government",
    ["government", "policy", "regulation", "legislation", "law", "statute", "ordinance", "rule", "compliance", "enforcement", "agency", "department", "ministry", "bureau", "commission", "authority", "public", "service", "administration", "official", "federal", "state", "local", "municipal"]),
   ("News",
    ["news", "article", "breaking", "headline", "story", "reporter", "journalist", "press", "media", "coverage", "interview", "statement", "announcement", "update", "bulletin", "broadcast", "publication", "editorial", "opinion", "current", "events", "happening", "developing", "latest", "recent"]),
   ("Entertainment",
    ["entertainment", "movie", "film", "television", "tv", "show", "series", "music", "song", "album", "artist", "performer", "actor", "actress", "celebrity", "star", "fame", "popular", "culture", "gaming", "game", "sport", "recreation", "leisure", "fun", "enjoyment", "amusement"]),
   ("Sports",
    ["sports", "football", "basketball", "baseball", "soccer", "tennis", "golf", "hockey", "volleyball", "swimming", "running", "marathon", "athlete", "player", "team", "coach", "training", "competition", "tournament", "championship", "league", "season", "game", "match"]),
   ("Travel",
    ["travel", "trip", "vacation", "holiday", "destination", "tourism", "hotel", "accommodation", "flight", "airline", "airport", "booking", "reservation", "itinerary", "guide", "attraction", "sightseeing", "adventure", "exploration", "journey", "expedition", "cruise", "resort"]),
   ("Food",
    ["food", "recipe", "cooking", "cuisine", "restaurant", "menu", "dish", "ingredient", "nutrition", "diet", "healthy", "organic", "fresh", "meal", "breakfast", "lunch", "dinner", "snack", "beverage", "drink", "chef", "kitchen", "preparation", "flavor", "taste", "delicious"]),
   ("Technology",
    ["technology", "innovation", "digital", "computer", "software", "hardware", "internet", "web", "mobile", "app", "application", "platform", "system", "data", "cloud", "artificial", "intelligence", "machine", "learning", "automation", "robotics", "blockchain", "cryptocurrency", "cybersecurity"]),
   ("Healthcare",
    ["healthcare", "health", "medical", "medicine", "treatment", "therapy", "diagnosis", "patient", "doctor", "nurse", "hospital", "clinic", "pharmaceutical", "drug", "medication", "disease", "illness", "condition", "prevention", "wellness", "fitness", "exercise", "mental", "physical"]),
   ("Real Estate",
    ["real", "estate", "property", "house", "home", "apartment", "condo", "residential", "commercial", "industrial", "land", "lot", "building", "construction", "development", "investment", "mortgage", "loan", "rent", "lease", "buy", "sell", "market", "value", "appraisal", "agent", "broker"]),
   ("Insurance",
    ["insurance", "policy", "coverage", "premium", "claim", "deductible", "liability", "auto", "health", "life", "property", "casualty", "underwriting", "risk", "assessment", "protection", "benefit", "compensation", "reimbursement", "settlement", "adjuster", "agent", "broker", "carrier"]),
   ("Banking",
    ["banking", "bank", "account", "savings", "checking", "deposit", "withdrawal", "transfer", "transaction", "balance", "interest", "rate", "loan", "credit", "mortgage", "investment", "portfolio", "financial", "money", "currency", "payment", "card", "atm", "branch", "online", "mobile"]),
   ("Construction",
    ["construction", "building", "contractor", "architect", "engineer", "project", "site", "material", "concrete", "steel", "wood", "foundation", "structure", "design", "blueprint", "permit", "safety", "equipment", "machinery", "worker", "labor", "cost", "budget", "schedule", "timeline", "completion"]),
   ("Manufacturing",
    ["manufacturing", "production", "factory", "plant", "assembly", "line", "process", "quality", "control", "inspection", "testing", "machinery", "equipment", "automation", "efficiency", "output", "capacity", "supply", "chain", "inventory", "raw", "material", "finished", "goods", "warehouse"]),
   ("Retail",
    ["retail", "store", "shop", "customer", "sale", "purchase", "product", "merchandise", "inventory", "stock", "price", "discount", "promotion", "marketing", "advertising", "brand", "display", "checkout", "payment", "service", "experience", "satisfaction", "loyalty", "return", "exchange"]),
   ("Transportation",
    ["transportation", "transport", "vehicle", "car", "truck", "bus", "train", "airplane", "ship", "freight", "cargo", "delivery", "logistics", "route", "traffic", "road", "highway", "infrastructure", "fuel", "maintenance", "safety", "regulation", "license", "permit", "driver", "passenger"]),
   ("Energy",
    ["energy", "power", "electricity", "solar", "wind", "nuclear", "coal", "oil", "gas", "renewable", "sustainable", "grid", "generation", "consumption", "efficiency", "conservation", "utility", "plant", "facility", "resource", "fuel", "battery", "storage", "transmission", "distribution", "cost"]),
   ("Environmental",
    ["environmental", "environment", "ecology", "climate", "weather", "pollution", "contamination", "waste", "recycling", "sustainability", "conservation", "protection", "wildlife", "habitat", "ecosystem", "biodiversity", "carbon", "emission", "greenhouse", "global", "warming", "renewable", "clean", "green"]),
   ("Social Media",
    ["social", "media", "facebook", "twitter", "instagram", "linkedin", "youtube", "post", "share", "like", "comment", "follow", "follower", "friend", "network", "platform", "content", "viral", "trending", "hashtag", "influence", "engagement", "community", "online", "digital", "communication", "interaction", "connection"]),
   ("Web Content",
    ["web", "website", "page", "content", "blog", "article", "post", "online", "internet", "digital", "html", "css", "javascript", "responsive", "design", "user", "experience", "interface", "navigation", "link", "url", "domain", "hosting", "server", "database", "cms", "wordpress", "seo", "optimization"]),
   ("Blog",
    ["blog", "blogger", "blogging", "post", "article", "content", "writing", "author", "publish", "share", "comment", "reader", "audience", "topic", "category", "tag", "archive", "feed", "rss", "subscribe", "follow", "personal", "opinion", "experience", "story", "diary", "journal"]),
   ("Tutorial",
    ["tutorial", "guide", "how", "to", "step", "instruction", "lesson", "learn", "teach", "explain", "demonstrate", "example", "practice", "exercise", "walkthrough", "course", "training", "skill", "technique", "method", "procedure", "process", "beginner", "advanced", "tips", "tricks"]),
   ("Manual",
    ["manual", "handbook", "guide", "instruction", "documentation", "reference", "specification", "procedure", "operation", "maintenance", "troubleshooting", "installation", "setup", "configuration", "user", "technical", "service", "repair", "warranty", "safety", "precaution", "warning", "caution"]),
   ("Policy",
    ["policy", "procedure", "guideline", "rule", "regulation", "standard", "protocol", "directive", "instruction", "requirement", "compliance", "governance", "framework", "structure", "process", "workflow", "approval", "authorization", "responsibility", "accountability", "enforcement", "violation"])
  ]
/-- The classifier state built by `DocumentClassifier.__init__`. -/
def builtinState : ClassifierState :=
  { categories := builtinCategories, categoryKeywords := builtinKeywords }

/-- One category's raw keyword score, as accumulated by the loops in
`_classify_by_keywords` and `get_classification_confidence`: per keyword,
`+1` when the keyword is in the word-token set, plus `0.5` times
`content_lower.count(keyword)`. -/
def rawScore (cl : List Char) (ws : List (List Char)) (kws : List String) : ℚ :=
  kws.foldl
    (fun s kw =>
      (if ws.contains kw.toList then s + 1 else s) + (countOcc kw.toList cl : ℚ) * (1 / 2))
    0

/-- The normalized score dictionary of `_classify_by_keywords`, in
registration order.  `none` models the `ZeroDivisionError` Python raises
when some registered category has an empty keyword list (the division
`score / len(keywords)` is unguarded there). -/
def categoryScoresE (cl : List Char) (ws : List (List Char)) :
    List (String × List String) → Option (List (String × ℚ))
  | [] => some []
  | p :: rest =>
    if p.2.length = 0 then none
    else (categoryScoresE cl ws rest).map (fun r => (p.1, rawScore cl ws p.2 / (p.2.length : ℚ)) :: r)

/-- The selection step of `_classify_by_keywords`: Python's
`max(category_scores.keys(), key=...)` keeps the first maximum in
iteration order (it replaces the running best only on strictly greater
scores), and the winner is returned only when its score exceeds `0.1`;
an empty score dictionary falls through to `'Other'`. -/
def pickBest (scores : List (String × ℚ)) : String :=
  match scores with
  | [] => "Other"
  | x :: xs =>
    let best := xs.foldl (fun b y => if b.2 < y.2 then y else b) x
    if (1 : ℚ) / 10 < best.2 then best.1 else "Other"

/-- `DocumentClassifier._classify_by_keywords`: score every category, take
the maximum (first maximum in registration order), and fall back to
`'Other'` unless the winning score exceeds `0.1`. -/
def classifyByKeywords (catKw : List (String × List String)) (content : String) : Option String :=
  let cl := pyLowerL content.toList
  let ws := wordTokens cl
  (categoryScoresE cl ws catKw).map pickBest

/-- `DocumentClassifier.classify_document`: empty or whitespace-only content
returns `'Other'` immediately, otherwise keyword classification runs. -/
def classifyDocument (catKw : List (String × List String)) (content : String) : Option String :=
  if pyStrip content.toList = [] then some "Other" else classifyByKeywords catKw content

/-- `DocumentClassifier.get_classification_confidence`: the same scores, but
an empty keyword list contributes `0` (guarded), and each normalized score
is capped at `1.0`. -/
def classificationConfidence (catKw : List (String × List String)) (content : String) :
    List (String × ℚ) :=
  let cl := pyLowerL content.toList
  let ws := wordTokens cl
  catKw.map (fun p =>
    (p.1, min (if p.2.length = 0 then 0 else rawScore cl ws p.2 / (p.2.length : ℚ)) 1))

/-- `DocumentClassifier.add_category_keywords`: extend an existing category's
keyword list in place, or register a brand-new category (appended at the end
of the mapping, and to `categories` when not already there). -/
def addCategoryKeywords (st : ClassifierState) (category : String) (keywords : List String) :
    ClassifierState :=
  if st.categoryKeywords.any (fun p => p.1 = category) then
    { st with
      categoryKeywords :=
        st.categoryKeywords.map (fun p => if p.1 = category then (p.1, p.2 ++ keywords) else p) }
  else
    { categories :=
        if st.categories.contains category then st.categories else st.categories ++ [category],
      categoryKeywords := st.categoryKeywords ++ [(category, keywords)] }

/-- The normalized score list `classify` computes on the built-in table,
written as a plain map (total, since every built-in keyword list is
non-empty). -/
def builtinScores (content : String) : List (String × ℚ) :=
  builtinKeywords.map
    (fun p =>
      (p.1,
        rawScore (pyLowerL content.toList) (wordTokens (pyLowerL content.toList)) p.2 /
          (p.2.length : ℚ)))

/-- The per-category normalized score exactly as the specification words it:
the sum over the category's keywords of (1 if the keyword is a word token
of the lowercased content else 0) plus 0.5 times the count of substring
occurrences, divided by the keyword-list length. -/
def specNormScore (content : String) (kws : List String) : ℚ :=
  ((kws.map
        (fun kw =>
          (if (wordTokens (pyLowerL content.toList)).contains kw.toList then (1 : ℚ) else 0) +
            (countOcc kw.toList (pyLowerL content.toList) : ℚ) * (1 / 2))).sum) /
    (kws.length : ℚ)

/-! ## The search engine (src/search_engine.py) -/

/-- A stored document as the search engine consumes it: positional fields
0 (id), 1 (filename), 2 (title) and 3 (content) of the store's tuple.  The
remaining tuple fields are not read by any claimed operation. -/
structure Doc where
  docId : Nat
  filename : String
  title : String
  content : String
deriving DecidableEq

/-- Split `l` at its first double quote: `some (before, after)` with the
quote itself dropped, or `none` when `l` has no quote.  This is the regex
engine's search for the closing `"` of `"([^"]*)"`. -/
def breakAtQuote : List Char → Option (List Char × List Char)
  | [] => none
  | c :: t =>
    if c = '"' then some ([], t)
    else (breakAtQuote t).map (fun q => (c :: q.1, q.2))

theorem breakAtQuote_length :
    ∀ {l a b : List Char}, breakAtQuote l = some (a, b) → b.length < l.length := by
  intro l
  induction l with
  | nil => intro a b h; simp [breakAtQuote] at h
  | cons c t ih =>
    intro a b h
    by_cases hc : c = '"'
    · simp [breakAtQuote, hc] at h
      simp [← h.2]
    · cases hbt : breakAtQuote t with
      | none => simp [breakAtQuote, hc, hbt] at h
      | some q =>
        obtain ⟨q1, q2⟩ := q
        simp [breakAtQuote, hc, hbt] at h
        have := ih hbt
        simp [← h.2, List.length_cons]
        omega

/-- `re.findall(r'"([^"]*)"', q)` together with
`re.sub(r'"[^"]*"', '', q)` in one pass: the quoted phrases in order of
appearance (quotes stripped), and the query with the quoted spans removed.
An unmatched opening quote matches nothing and stays in the remainder.
`fuel` only forces structural recursion; every call passes the input's
length, which `breakAtQuote_length` shows is never exhausted. -/
def extractQuotedF : Nat → List Char → List (List Char) × List Char
  | 0, l => ([], l)
  | fuel + 1, l =>
    match l with
    | [] => ([], [])
    | c :: t =>
      if c = '"' then
        match breakAtQuote t with
        | some q =>
          let r := extractQuotedF fuel q.2
          (q.1 :: r.1, r.2)
        | none => ([], c :: t)
      else
        let r := extractQuotedF fuel t
        (r.1, c :: r.2)

/-- The quoted-phrase extraction at full fuel. -/
def extractQuoted (l : List Char) : List (List Char) × List Char :=
  extractQuotedF l.length l

/-- `SearchEngine._parse_query`: quoted phrases first, then the
whitespace-split remaining terms, each term stripped, empty terms dropped. -/
def parseQuery (query : String) : List String :=
  let r := extractQuoted query.toList
  let terms := r.1 ++ splitWs r.2
  ((terms.map pyStrip).filter (fun t => !t.isEmpty)).map String.mk

/-- Python's substring test `pat in s`: some contiguous run of `s` equals
`pat` (always true for the empty pattern). -/
def isSubstr (pat : List Char) : List Char → Bool
  | [] => pat.isEmpty
  | c :: rest => leadMatchFold false pat (c :: rest) || isSubstr pat rest

/-- `SearchEngine._document_matches`: false on an empty term list, otherwise
every term must occur as a literal substring of the text, with text and
terms lowercased unless `caseSensitive`. -/
def documentMatches (text : String) (terms : List String) (caseSensitive : Bool) : Bool :=
  if terms.isEmpty then false
  else
    let text1 := if caseSensitive then text else pyLowerS text
    let terms1 := if caseSensitive then terms else terms.map pyLowerS
    terms1.all (fun term => isSubstr term.toList text1.toList)

/-- The literal text `re.sub` substitutes around a whole-word match in
`_highlight_matches`. -/
def mlMarkPre : List Char := "<mark style=\"background-color: yellow; padding: 2px;\">".toList

/-- Closing tag of the highlight substitution. -/
def mlMarkPost : List Char := "</mark>".toList

/-- The regex `\b` test between two adjacent positions whose characters are
`a` and `b` (`none` outside the string): a boundary iff exactly one side is
a word character. -/
def wordBoundary (a b : Option Char) : Bool :=
  (match a with | some c => isWordChar c | none => false) !=
    (match b with | some c => isWordChar c | none => false)

/-- One `re.sub(r'\b' + re.escape(term) + r'\b', mark, s, flags)` pass:
scan left to right, replace every non-overlapping whole-word occurrence of
`pat` (case-folded when `fold`), keeping the original casing of the matched
span.  `prev` is the character just before the current scan position. -/
def wwSubF (fold : Bool) (pat : List Char) : Nat → Option Char → List Char → List Char
  | 0, _, s => s
  | fuel + 1, prev, s =>
    match s with
    | [] => []
    | c :: rest =>
      if !pat.isEmpty && leadMatchFold fold pat (c :: rest) &&
          wordBoundary prev (some c) &&
          wordBoundary ((c :: rest).take pat.length).getLast?
            ((c :: rest).drop pat.length).head? then
        mlMarkPre ++ (c :: rest).take pat.length ++ mlMarkPost ++
          wwSubF fold pat fuel ((c :: rest).take pat.length).getLast?
            ((c :: rest).drop pat.length)
      else c :: wwSubF fold pat fuel (some c) rest

/-- The whole-word substitution at full fuel (`fuel` only forces structural
recursion: each step consumes at least one character, and on a whole-word
match `leadMatchFold_length` bounds the jump by the remaining length, so
length-many units never run out). -/
def wwSub (fold : Bool) (pat : List Char) (prev : Option Char) (s : List Char) : List Char :=
  wwSubF fold pat s.length prev s

/-- `SearchEngine._truncate_content`'s break-point search: the first index
`i` in `range(max_length - 100, max_length + 100)` with `i < len(content)`
and `content[i]` a sentence-ending character; Python's `range` is modelled
by `natRange`. -/
def isSentEnd (c : Char) : Bool := c = '.' || c = '!' || c = '?'

/-- `range(s, s + n)` as a list. -/
def natRange (s : Nat) : Nat → List Nat
  | 0 => []
  | n + 1 => s :: natRange (s + 1) n

/-- The loop body's test `i < len(content) and content[i] in '.!?'` at
index `i`. -/
def punctAt (cs : List Char) (i : Nat) : Bool :=
  decide (i < cs.length) && isSentEnd (cs.getD i ' ')

/-- The `break_point` the truncation loop settles on: one past the first
sentence-ending character found in the scan window, else `maxLength`. -/
def truncBreak (cs : List Char) (maxLength : Nat) : Nat :=
  match (natRange (maxLength - 100) 200).find? (punctAt cs) with
  | some i => i + 1
  | none => maxLength

/-- `SearchEngine._truncate_content`: content at most `maxLength` long is
returned as-is; otherwise it is cut at `truncBreak`, stripped, and an
ellipsis is appended when characters remain beyond the cut.  The repository
always calls this with `maxLength` 1500 or 2000. -/
def truncateContent (content : String) (maxLength : Nat) : String :=
  let cs := content.toList
  if cs.length ≤ maxLength then content
  else
    let bp := truncBreak cs maxLength
    if bp < cs.length then String.mk (pyStrip (cs.take bp) ++ "...".toList)
    else String.mk (pyStrip (cs.take bp))

/-- `SearchEngine._highlight_matches`: with no terms, just truncate (default
limit 1500); otherwise substitute every whole-word occurrence of every
non-blank term (case-insensitive unless `caseSensitive`), then truncate with
limit 2000. -/
def highlightMatches (content : String) (terms : List String) (caseSensitive : Bool) : String :=
  if terms.isEmpty then truncateContent content 1500
  else
    let hc := terms.foldl
      (fun acc term =>
        if (pyStrip term.toList).isEmpty then acc
        else wwSub (!caseSensitive) term.toList none acc)
      content.toList
    truncateContent (String.mk hc) 2000

/-- The searchable text for a document under a scope string, as
`search_documents` dispatches on `search_in`. -/
def scopeText (searchIn : String) (d : Doc) : String :=
  if searchIn = "Title" then d.title
  else if searchIn = "Content" then d.content
  else d.title ++ " " ++ d.content

/-- `SearchEngine.search_documents`: empty/whitespace query short-circuits
to `[]`; otherwise every document whose scoped text matches all parsed
terms is kept, in input order, paired with its id and highlighted content. -/
def searchDocuments (docs : List Doc) (query : String) (searchIn : String)
    (caseSensitive : Bool) : List (Nat × Doc × String) :=
  if pyStrip query.toList = [] then []
  else
    let terms := parseQuery query
    docs.filterMap (fun d =>
      if documentMatches (scopeText searchIn d) terms caseSensitive then
        some (d.docId, d, highlightMatches d.content terms caseSensitive)
      else none)

/-- The deduplicated word-token set of the lowercased text, in first
occurrence order (the deterministic representative of Python's `set`). -/
def wordSetOf (s : String) : List (List Char) := (wordTokens (pyLowerL s.toList)).dedup

/-- `SearchEngine.search_by_similarity`: empty reference yields `[]`;
documents with an empty word set are skipped; the rest are kept (in input
order) when the Jaccard word-overlap similarity reaches the threshold, with
up to 10 common terms highlighted. -/
def searchBySimilarity (docs : List Doc) (ref : String) (threshold : ℚ) :
    List (Nat × Doc × String) :=
  if pyStrip ref.toList = [] then []
  else
    let refW := wordSetOf ref
    docs.filterMap (fun d =>
      let docW := wordSetOf d.content
      if docW.isEmpty then none
      else
        let inter := refW.filter (fun w => docW.contains w)
        let unionLen := refW.length + (docW.filter (fun w => !refW.contains w)).length
        let sim : ℚ := if unionLen = 0 then 0 else (inter.length : ℚ) / (unionLen : ℚ)
        if threshold ≤ sim then
          some (d.docId, d, highlightMatches d.content ((inter.take 10).map String.mk) false)
        else none)

/-- The suggestion collection loop of `get_search_suggestions`: walk the
word set, keep words with the lowercased partial as a literal prefix and
strictly longer than the partial, and stop once `room` suggestions were
collected (Python breaks when `len(suggestions) >= max_suggestions`). -/
def collectSuggestions (pl : List Char) (plen : Nat) :
    List (List Char) → Nat → List (List Char)
  | [], _ => []
  | w :: rest, room =>
    if leadMatchFold false pl w && decide (plen < w.length) then
      if room ≤ 1 then [w] else w :: collectSuggestions pl plen rest (room - 1)
    else collectSuggestions pl plen rest room

/-- `SearchEngine.get_search_suggestions`: partials shorter than 2 yield
`[]`; otherwise collect word tokens of the lowercased contents that extend
the lowercased partial, and return up to `maxSuggestions` of them sorted. -/
def getSearchSuggestions (docs : List Doc) (partialQuery : String) (maxSuggestions : Nat) :
    List String :=
  if partialQuery.toList.length < 2 then []
  else
    let pl := pyLowerL partialQuery.toList
    let allWords := (docs.flatMap (fun d => wordTokens (pyLowerL d.content.toList))).dedup
    let sugg := collectSuggestions pl partialQuery.toList.length allWords maxSuggestions
    ((sortWords sugg).take maxSuggestions).map String.mk

/-! ## Specification-side definitions

These transcribe the claims' own wording where it differs from (or needs
comparing against) the code above. -/

/-- Claim C5 verbatim: the double-quoted substrings with only the quotes
stripped, then the whitespace-split remaining terms, dropping terms that
are empty or whitespace-only — but never whitespace-stripping a kept
term. -/
def parseQuerySpecC5 (query : String) : List String :=
  let r := extractQuoted query.toList
  ((r.1 ++ splitWs r.2).filter (fun t => !(pyStrip t).isEmpty)).map String.mk

/-- The amended wording of C5: every kept term is additionally stripped of
leading and trailing whitespace (terms whose strip is empty are dropped). -/
def parseQuerySpecAmended (query : String) : List String :=
  let r := extractQuoted query.toList
  (r.1 ++ splitWs r.2).filterMap (fun t =>
    let s := pyStrip t
    if s.isEmpty then none else some (String.mk s))

/-- Claim C3's Jaccard similarity of two texts' word sets: `0` when either
word set is empty or the union is empty, else `|A ∩ B| / |A ∪ B|`. -/
def jaccardSpec (a b : String) : ℚ :=
  let A := wordSetOf a
  let B := wordSetOf b
  let u := A.length + (B.filter (fun w => !A.contains w)).length
  if A.isEmpty ∨ B.isEmpty ∨ u = 0 then 0
  else ((A.filter (fun w => B.contains w)).length : ℚ) / (u : ℚ)

/-- Claim C3 verbatim: the documents kept by `find_similar` are exactly
those whose Jaccard similarity with the reference reaches the threshold. -/
def similarDocsSpecC3 (docs : List Doc) (ref : String) (threshold : ℚ) : List Doc :=
  if pyStrip ref.toList = [] then []
  else docs.filter (fun d => decide (threshold ≤ jaccardSpec ref d.content))

/-- Claim C7 verbatim: suggestions are word tokens of the documents'
content (as stored, not lowercased) with the partial term as a
case-sensitive prefix, strictly longer than it, sorted, at most
`maxSuggestions` of them. -/
def suggestionsSpecC7 (docs : List Doc) (partialQuery : String) (maxSuggestions : Nat) :
    List String :=
  if partialQuery.toList.length < 2 then []
  else
    let allW := (docs.flatMap (fun d => wordTokens d.content.toList)).dedup
    let matching := allW.filter (fun w =>
      leadMatchFold false partialQuery.toList w && decide (partialQuery.toList.length < w.length))
    ((sortWords matching).take maxSuggestions).map String.mk

/-- The scan of the amended C6 wording: from index `i`, for `n` positions,
the first index holding a sentence-ending character inside the content. -/
def scanPunct (cs : List Char) : Nat → Nat → Option Nat
  | _, 0 => none
  | i, n + 1 =>
    match punctAt cs i with
    | true => some i
    | false => scanPunct cs (i + 1) n

/-- The amended wording of C6: cut one past the first sentence-ending
character found scanning indices `maxLength - 100` to `maxLength + 99` in
increasing order (else at `maxLength`), strip the cut prefix, and append
an ellipsis when characters remain beyond the cut. -/
def truncSpecAmended (content : String) (maxLength : Nat) : String :=
  let cs := content.toList
  if maxLength < cs.length then
    let bp := match scanPunct cs (maxLength - 100) 200 with
      | some i => i + 1
      | none => maxLength
    if bp < cs.length then String.mk (pyStrip (cs.take bp) ++ "...".toList)
    else String.mk (pyStrip (cs.take bp))
  else content

/-- The sentence-ending index nearest to the boundary within plus-or-minus
100 characters of it, as claim C6 words the preference: probe distances
0, 1, ..., 100 in increasing order, below the boundary before above it
(the claim fixes no tie order; the counterexamples below have no ties). -/
def nearestPunct (cs : List Char) (maxLength : Nat) : Option Nat :=
  (natRange 0 101).findSome? (fun d =>
    if punctAt cs (maxLength - d) then some (maxLength - d)
    else if punctAt cs (maxLength + d) then some (maxLength + d)
    else none)

/-- Claim C6 verbatim: cut at the boundary, preferring one past the nearest
sentence-ending character within plus-or-minus 100 of it, appending an
ellipsis when truncation occurred (nothing in the claim strips the cut). -/
def truncNearestSpecC6 (content : String) (maxLength : Nat) : String :=
  let cs := content.toList
  if cs.length ≤ maxLength then content
  else
    let bp := match nearestPunct cs maxLength with
      | some i => i + 1
      | none => maxLength
    if bp < cs.length then String.mk (cs.take bp ++ "...".toList)
    else String.mk (cs.take bp)

/-- Concrete over-long content for the C6 counterexample: sentence ends at
indices 1400 and 1499, total length 1700. -/
def c6content1 : String :=
  String.mk (List.replicate 1400 'a' ++ '.' :: List.replicate 98 'a' ++ '.' :: List.replicate 200 'a')

/-- Concrete over-long content that opens with a whitespace character and
has sentence ends at indices 1400 and 1500, total length 1700: the code's
cut prefix gets its leading space stripped, claim C6's does not. -/
def c6content2 : String :=
  String.mk (' ' :: List.replicate 1399 'a' ++ '.' :: List.replicate 99 'a' ++
    '.' :: List.replicate 199 'a')

/-- Case folding as the search claims word it: identity in case-sensitive
mode, `str.lower()` otherwise. -/
def optLower (caseSensitive : Bool) (s : String) : String :=
  if caseSensitive then s else pyLowerS s

/-! ## Helper lemmas -/

theorem filterMap_ite {α β : Type} (l : List α) (p : α → Bool) (f : α → β) :
    l.filterMap (fun a => if p a then some (f a) else none) = (l.filter p).map f := by
  induction l with
  | nil => rfl
  | cons a t ih =>
    by_cases h : p a = true
    · simp [List.filterMap_cons, List.filter_cons, h, ih]
    · simp only [Bool.not_eq_true] at h
      simp [List.filterMap_cons, List.filter_cons, h, ih]

/-! ## The claims -/

/-- C4: for the content "catalog cats" and the single term "cat"
(case-insensitive), the match decision succeeds — "cat" is a substring —
but the highlighted excerpt is the content unchanged, carrying no mark:
neither "catalog" nor "cats" contains "cat" as a whole word. -/
theorem match_highlight_asymmetry :
    documentMatches "catalog cats" ["cat"] false = true ∧
      highlightMatches "catalog cats" ["cat"] false = "catalog cats" :=
  ⟨by decide, by decide⟩

/-- C9: content that is empty or whitespace-only (so its strip is empty) is
classified 'Other' immediately, under any keyword table, and the operation
returns a value (never the error case). -/
theorem classify_empty_other (catKw : List (String × List String)) (content : String)
    (h : pyStrip content.toList = []) :
    classifyDocument catKw content = some "Other" := by
  unfold classifyDocument
  simp [show pyStrip content.data = [] from h]

/-- Witness for `classify_empty_other` at the claim's two inputs. -/
theorem classify_empty_other_witness :
    classifyDocument builtinKeywords "" = some "Other" ∧
      classifyDocument builtinKeywords "   " = some "Other" :=
  ⟨classify_empty_other builtinKeywords "" (by decide),
   classify_empty_other builtinKeywords "   " (by decide)⟩

/-- C5 counterexample: on the query consisting of the quoted phrase
`" a "`, the parser returns the whitespace-stripped term "a", while the
claim's reading (quotes stripped, nothing else) predicts " a ". -/
theorem parse_query_strip_cex :
    parseQuery (String.mk ['"', ' ', 'a', ' ', '"']) = ["a"] ∧
      parseQuerySpecC5 (String.mk ['"', ' ', 'a', ' ', '"']) = [" a "] ∧
      parseQuery (String.mk ['"', ' ', 'a', ' ', '"']) ≠
        parseQuerySpecC5 (String.mk ['"', ' ', 'a', ' ', '"']) :=
  ⟨by decide, by decide, by decide⟩

/-- C7 counterexample: for a document whose content is "Catalog" and the
partial term "CA", the code suggests "catalog" (both sides lowercased),
while the claim's case-sensitive prefix test over the stored tokens
predicts no suggestion at all. -/
theorem suggestions_case_cex :
    getSearchSuggestions [⟨1, "f", "t", "Catalog"⟩] "CA" 5 = ["catalog"] ∧
      suggestionsSpecC7 [⟨1, "f", "t", "Catalog"⟩] "CA" 5 = [] ∧
      getSearchSuggestions [⟨1, "f", "t", "Catalog"⟩] "CA" 5 ≠
        suggestionsSpecC7 [⟨1, "f", "t", "Catalog"⟩] "CA" 5 :=
  ⟨by decide, by decide, by decide⟩

/-- C3 counterexample: with threshold 0 and a document whose content has no
word tokens, the claim's rule (Jaccard similarity 0 ≥ threshold 0) keeps
the document, but the code skips every document with an empty word set and
returns no results. -/
theorem similarity_empty_doc_cex :
    searchBySimilarity [⟨7, "f", "t", ""⟩] "hello" 0 = [] ∧
      similarDocsSpecC3 [⟨7, "f", "t", ""⟩] "hello" 0 = [⟨7, "f", "t", ""⟩] ∧
      (searchBySimilarity [⟨7, "f", "t", ""⟩] "hello" 0).map (fun r => r.2.1) ≠
        similarDocsSpecC3 [⟨7, "f", "t", ""⟩] "hello" 0 :=
  ⟨by decide, by decide, by decide⟩

theorem natRange_find_eq_scan (cs : List Char) :
    ∀ (n i : Nat), (natRange i n).find? (punctAt cs) = scanPunct cs i n := by
  intro n
  induction n with
  | zero => intro i; rfl
  | succ n ih =>
    intro i
    have e1 : natRange i (n + 1) = i :: natRange (i + 1) n := rfl
    rw [e1, List.find?_cons]
    show (match punctAt cs i with
      | true => some i
      | false => (natRange (i + 1) n).find? (punctAt cs)) =
      scanPunct cs i (n + 1)
    unfold scanPunct
    cases hp : punctAt cs i with
    | true => rfl
    | false => exact ih (i + 1)

/-- C6 amended: content within the limit is returned unchanged; over-long
content is cut one past the first sentence-ending character found scanning
upward from 100 before the boundary (through 99 after it), the cut prefix
is stripped of surrounding whitespace, and an ellipsis is appended when
the cut leaves characters behind. -/
theorem truncate_first_scan (content : String) (maxLength : Nat) :
    (content.toList.length ≤ maxLength → truncateContent content maxLength = content) ∧
      truncateContent content maxLength = truncSpecAmended content maxLength := by
  have hbp : truncBreak content.toList maxLength =
      (match scanPunct content.toList (maxLength - 100) 200 with
        | some i => i + 1
        | none => maxLength) := by
    unfold truncBreak
    rw [natRange_find_eq_scan]
  constructor
  · intro h
    unfold truncateContent
    exact if_pos h
  · unfold truncateContent truncSpecAmended
    by_cases hle : content.toList.length ≤ maxLength
    · rw [if_pos hle, if_neg (Nat.not_lt.mpr hle)]
    · rw [if_neg hle, if_pos (Nat.not_le.mp hle), hbp]

theorem documentMatches_eq (text : String) (terms : List String) (cs : Bool) (h : terms ≠ []) :
    documentMatches text terms cs =
      terms.all (fun t => isSubstr (optLower cs t).toList (optLower cs text).toList) := by
  unfold documentMatches
  have hne : terms.isEmpty = false := by
    cases terms with
    | nil => exact absurd rfl h
    | cons a t => rfl
  rw [if_neg (by simp [hne])]
  cases cs with
  | false =>
    simp only [Bool.false_eq_true, if_false, optLower, List.all_map]
    rfl
  | true => simp [optLower]

/-- C2: search on an empty or whitespace-only query (equivalently, one that
parses to no terms) returns no results; otherwise the result list is
exactly the input-ordered documents whose scoped searchable text contains
every parsed term as a literal substring — text and terms lowercased
unless case-sensitive — each paired with its id and highlighted content. -/
theorem search_documents_spec (docs : List Doc) (query : String) (searchIn : String)
    (caseSensitive : Bool) :
    searchDocuments docs query searchIn caseSensitive =
      if pyStrip query.toList = [] ∨ parseQuery query = [] then []
      else
        (docs.filter (fun d =>
            (parseQuery query).all (fun t =>
              isSubstr (optLower caseSensitive t).toList
                (optLower caseSensitive (scopeText searchIn d)).toList))).map
          (fun d => (d.docId, d, highlightMatches d.content (parseQuery query) caseSensitive)) := by
  by_cases hq : pyStrip query.toList = []
  · unfold searchDocuments
    rw [if_pos hq, if_pos (Or.inl hq)]
  · by_cases ht : parseQuery query = []
    · unfold searchDocuments
      rw [if_neg hq, if_pos (Or.inr ht), ht]
      simp [documentMatches]
    · unfold searchDocuments
      rw [if_neg hq,
        if_neg (show ¬(pyStrip query.toList = [] ∨ parseQuery query = []) from
          fun hc => hc.elim hq ht)]
      rw [filterMap_ite docs
        (fun d => documentMatches (scopeText searchIn d) (parseQuery query) caseSensitive)
        (fun d => (d.docId, d, highlightMatches d.content (parseQuery query) caseSensitive))]
      congr 1
      apply List.filter_congr
      intro d _
      exact documentMatches_eq (scopeText searchIn d) (parseQuery query) caseSensitive ht

theorem runsOf_nil (p : Char → Bool) :
    ∀ l : List Char, (∀ c ∈ l, p c = false) → runsOf p l = [] := by
  intro l
  induction l with
  | nil => intro _; rfl
  | cons c t ih =>
    intro h
    have hc : p c = false := h c (List.mem_cons_self c t)
    simp [runsOf, hc]
    exact ih (fun d hd => h d (List.mem_cons_of_mem c hd))

theorem extractQuotedF_no_quote :
    ∀ (n : Nat) (l : List Char), l.length ≤ n → (∀ c ∈ l, ¬c = '"') →
      extractQuotedF n l = ([], l) := by
  intro n
  induction n with
  | zero =>
    intro l hl _
    have : l = [] := List.eq_nil_of_length_eq_zero (Nat.le_zero.mp hl)
    subst this
    rfl
  | succ n ih =>
    intro l hl hq
    cases l with
    | nil => rfl
    | cons c t =>
      have hc : ¬c = '"' := hq c (List.mem_cons_self c t)
      have ht : extractQuotedF n t = ([], t) := by
        apply ih
        · simpa [List.length_cons, Nat.succ_le_succ_iff] using hl
        · exact fun d hd => hq d (List.mem_cons_of_mem c hd)
      simp [extractQuotedF, hc, ht]

theorem extractQuoted_no_quote (l : List Char) (h : ∀ c ∈ l, ¬c = '"') :
    extractQuoted l = ([], l) :=
  extractQuotedF_no_quote l.length l le_rfl h

theorem map_strip_filter (terms : List (List Char)) :
    ((terms.map pyStrip).filter (fun t => !t.isEmpty)).map String.mk =
      terms.filterMap (fun t =>
        let s := pyStrip t
        if s.isEmpty then none else some (String.mk s)) := by
  induction terms with
  | nil => rfl
  | cons a t ih =>
    by_cases h : (pyStrip a).isEmpty = true
    · simp only [List.map_cons, List.filter_cons, List.filterMap_cons, h]
      simpa [h] using ih
    · have h' : (pyStrip a).isEmpty = false := by
        cases hb : (pyStrip a).isEmpty
        · rfl
        · exact absurd hb h
      simp only [List.map_cons, List.filter_cons, List.filterMap_cons, h']
      simpa [h'] using congrArg (List.cons (String.mk (pyStrip a))) ih

/-- C5 amended: the parser's result is the quoted phrases followed by the
whitespace-split remaining terms, each stripped of surrounding whitespace,
with terms whose strip is empty dropped; a query of whitespace only (or
empty) yields no terms; and the claim's concrete example holds as
stated. -/
theorem parse_query_amended (query : String) :
    parseQuery query = parseQuerySpecAmended query ∧
      (∀ q : String, (∀ c ∈ q.toList, pyIsSpace c = true) → parseQuery q = []) ∧
      parseQuery "\"quick fox\" jumps" = ["quick fox", "jumps"] := by
  refine ⟨?_, ?_, by decide⟩
  · unfold parseQuery parseQuerySpecAmended
    exact map_strip_filter _
  · intro q hws
    have hnq : ∀ c ∈ q.toList, ¬c = '"' := by
      intro c hc he
      have := hws c hc
      rw [he] at this
      exact absurd this (by decide)
    have hsw : splitWs q.data = [] := by
      apply runsOf_nil
      intro c hc
      simp [hws c hc]
    unfold parseQuery
    rw [extractQuoted_no_quote q.toList hnq]
    simp [hsw]

theorem jaccard_eq_code (a b : String) (h : (wordSetOf b).isEmpty = false) :
    jaccardSpec a b =
      (if (wordSetOf a).length +
            ((wordSetOf b).filter (fun w => !(wordSetOf a).contains w)).length = 0
        then (0 : ℚ)
        else (((wordSetOf a).filter (fun w => (wordSetOf b).contains w)).length : ℚ) /
          (((wordSetOf a).length +
            ((wordSetOf b).filter (fun w => !(wordSetOf a).contains w)).length : Nat) : ℚ)) := by
  have hB : wordSetOf b ≠ [] := by simpa using h
  have hu : 0 < (wordSetOf a).length +
      ((wordSetOf b).filter (fun w => !(wordSetOf a).contains w)).length := by
    cases ha : wordSetOf a with
    | nil =>
      simp only [ha, List.length_nil, List.contains_nil, Bool.not_false, List.filter_true,
        Nat.zero_add]
      exact List.length_pos.mpr hB
    | cons x xs =>
      simp only [List.length_cons]
      omega
  rw [if_neg (Nat.pos_iff_ne_zero.mp hu)]
  unfold jaccardSpec
  by_cases hA : (wordSetOf a).isEmpty = true
  · rw [if_pos (Or.inl hA)]
    have ha : wordSetOf a = [] := by simpa using hA
    simp [ha]
  · rw [if_neg (by
      intro hc
      rcases hc with hc | hc | hc
      · exact hA hc
      · rw [h] at hc; exact Bool.false_ne_true hc
      · exact Nat.pos_iff_ne_zero.mp hu hc)]

theorem simFilterMap_eq (ref : String) (threshold : ℚ) :
    ∀ docs : List Doc,
      docs.filterMap (fun d =>
        if (wordSetOf d.content).isEmpty then none
        else
          if threshold ≤
              (if (wordSetOf ref).length +
                    ((wordSetOf d.content).filter (fun w => !(wordSetOf ref).contains w)).length
                    = 0
                then (0 : ℚ)
                else
                  (((wordSetOf ref).filter (fun w => (wordSetOf d.content).contains w)).length :
                      ℚ) /
                    (((wordSetOf ref).length +
                      ((wordSetOf d.content).filter
                        (fun w => !(wordSetOf ref).contains w)).length : Nat) : ℚ)) then
            some (d.docId, d,
              highlightMatches d.content
                ((((wordSetOf ref).filter
                    (fun w => (wordSetOf d.content).contains w)).take 10).map String.mk) false)
          else none) =
      (docs.filter (fun d =>
          !(wordSetOf d.content).isEmpty && decide (threshold ≤ jaccardSpec ref d.content))).map
        (fun d => (d.docId, d,
          highlightMatches d.content
            ((((wordSetOf ref).filter
                (fun w => (wordSetOf d.content).contains w)).take 10).map String.mk) false)) := by
  intro docs
  induction docs with
  | nil => rfl
  | cons d ds ih =>
    rw [List.filterMap_cons, List.filter_cons]
    by_cases h1 : (wordSetOf d.content).isEmpty = true
    · simp only [h1, if_true, Bool.not_true, Bool.false_and, if_false]
      exact ih
    · have h1' : (wordSetOf d.content).isEmpty = false := by
        cases hb : (wordSetOf d.content).isEmpty
        · rfl
        · exact absurd hb h1
      rw [jaccard_eq_code ref d.content h1']
      by_cases h2 : threshold ≤
          (if (wordSetOf ref).length +
                ((wordSetOf d.content).filter (fun w => !(wordSetOf ref).contains w)).length = 0
            then (0 : ℚ)
            else
              (((wordSetOf ref).filter (fun w => (wordSetOf d.content).contains w)).length : ℚ) /
                (((wordSetOf ref).length +
                  ((wordSetOf d.content).filter
                    (fun w => !(wordSetOf ref).contains w)).length : Nat) : ℚ))
      · simp only [h1', if_false, h2, if_true, Bool.not_false, Bool.true_and,
          decide_eq_true_eq, ih, List.map_cons]
        rfl
      · simp only [h1', if_false, h2, if_true, Bool.not_false, Bool.true_and,
          decide_eq_true_eq, ih]
        rfl

/-- C3 amended: similarity search returns, in input order, exactly the
documents whose word-token set is non-empty and whose Jaccard similarity
with the reference reaches the threshold (an empty or whitespace-only
reference yields no results); results are not reordered by score. -/
theorem search_by_similarity_amended (docs : List Doc) (ref : String) (threshold : ℚ) :
    searchBySimilarity docs ref threshold =
      if pyStrip ref.toList = [] then []
      else
        (docs.filter (fun d =>
            !(wordSetOf d.content).isEmpty && decide (threshold ≤ jaccardSpec ref d.content))).map
          (fun d => (d.docId, d,
            highlightMatches d.content
              ((((wordSetOf ref).filter
                  (fun w => (wordSetOf d.content).contains w)).take 10).map String.mk) false)) := by
  unfold searchBySimilarity
  by_cases hr : pyStrip ref.toList = []
  · rw [if_pos hr, if_pos hr]
  · rw [if_neg hr, if_neg hr]
    exact simFilterMap_eq ref threshold docs

theorem chToNat_inj {x y : Char} (h : x.toNat = y.toNat) : x = y := by
  have h2 := congrArg Char.ofNat h
  rwa [Char.ofNat_toNat, Char.ofNat_toNat] at h2

theorem strLe_total : ∀ a b : List Char, strLe a b = true ∨ strLe b a = true := by
  intro a
  induction a with
  | nil => intro b; exact Or.inl rfl
  | cons x xs ih =>
    intro b
    cases b with
    | nil => exact Or.inr rfl
    | cons y ys =>
      by_cases hxy : x = y
      · subst hxy
        rcases ih ys with h | h
        · left; simp [strLe, h]
        · right; simp [strLe, h]
      · have hyx : ¬y = x := fun he => hxy he.symm
        have hne : x.toNat ≠ y.toNat := fun he => hxy (chToNat_inj he)
        rcases Nat.lt_or_ge x.toNat y.toNat with h | h
        · left; simp [strLe, hxy, h]
        · right
          have hlt : y.toNat < x.toNat := Nat.lt_of_le_of_ne h (fun he => hne he.symm)
          simp [strLe, hyx, hlt]

theorem strLe_trans :
    ∀ a b c : List Char, strLe a b = true → strLe b c = true → strLe a c = true := by
  intro a
  induction a with
  | nil => intro b c _ _; rfl
  | cons x xs ih =>
    intro b c hab hbc
    cases b with
    | nil => simp [strLe] at hab
    | cons y ys =>
      cases c with
      | nil => simp [strLe] at hbc
      | cons z zs =>
        by_cases hxy : x = y
        · subst hxy
          by_cases hyz : x = z
          · subst hyz
            simp only [strLe, if_pos rfl] at hab hbc ⊢
            exact ih ys zs hab hbc
          · simp only [strLe, if_neg hyz] at hbc ⊢
            exact hbc
        · by_cases hyz : y = z
          · subst hyz
            simp only [strLe, if_neg hxy] at hab ⊢
            exact hab
          · simp only [strLe, if_neg hxy, if_neg hyz, decide_eq_true_eq] at hab hbc
            have hxz : x.toNat < z.toNat := Nat.lt_trans hab hbc
            have hne : ¬x = z := fun he => by
              subst he
              exact Nat.lt_irrefl _ hxz
            simp [strLe, hne, hxz]

theorem insertSorted_perm (w : List Char) : ∀ l, List.Perm (insertSorted w l) (w :: l) := by
  intro l
  induction l with
  | nil => exact List.Perm.refl _
  | cons x xs ih =>
    by_cases h : strLe w x = true
    · unfold insertSorted
      rw [if_pos h]
    · unfold insertSorted
      rw [if_neg h]
      exact List.Perm.trans (List.Perm.cons x ih) (List.Perm.swap w x xs)

theorem insertSorted_pairwise (w : List Char) :
    ∀ l, List.Pairwise (fun a b => strLe a b = true) l →
      List.Pairwise (fun a b => strLe a b = true) (insertSorted w l) := by
  intro l
  induction l with
  | nil => intro _; simp [insertSorted]
  | cons x xs ih =>
    intro hp
    rcases List.pairwise_cons.mp hp with ⟨hx, hxs⟩
    by_cases h : strLe w x = true
    · unfold insertSorted
      rw [if_pos h]
      refine List.pairwise_cons.mpr ⟨?_, hp⟩
      intro b hb
      rcases List.mem_cons.mp hb with rfl | hb
      · exact h
      · exact strLe_trans w x b h (hx b hb)
    · unfold insertSorted
      rw [if_neg h]
      refine List.pairwise_cons.mpr ⟨?_, ih hxs⟩
      intro b hb
      have hb2 : b ∈ w :: xs := (insertSorted_perm w xs).subset hb
      rcases List.mem_cons.mp hb2 with rfl | hb2
      · rcases strLe_total x b with ht | ht
        · exact ht
        · exact absurd ht h
      · exact hx b hb2

theorem sortWords_perm : ∀ l : List (List Char), List.Perm (sortWords l) l := by
  intro l
  induction l with
  | nil => exact List.Perm.refl _
  | cons x xs ih =>
    exact List.Perm.trans (insertSorted_perm x _) (List.Perm.cons x ih)

theorem sortWords_pairwise :
    ∀ l, List.Pairwise (fun a b => strLe a b = true) (sortWords l) := by
  intro l
  induction l with
  | nil => exact List.Pairwise.nil
  | cons x xs ih => exact insertSorted_pairwise x _ ih

theorem collect_sublist (pl : List Char) (plen : Nat) :
    ∀ (ws : List (List Char)) (room : Nat), List.Sublist (collectSuggestions pl plen ws room) ws := by
  intro ws
  induction ws with
  | nil => intro room; simp [collectSuggestions]
  | cons w rest ih =>
    intro room
    unfold collectSuggestions
    by_cases hm : (leadMatchFold false pl w && decide (plen < w.length)) = true
    · rw [if_pos hm]
      by_cases hr : room ≤ 1
      · rw [if_pos hr]
        exact (List.nil_sublist rest).cons₂ w
      · rw [if_neg hr]
        exact (ih (room - 1)).cons₂ w
    · rw [if_neg hm]
      exact (ih room).cons w

theorem collect_mem (pl : List Char) (plen : Nat) :
    ∀ (ws : List (List Char)) (room : Nat) (w : List Char),
      w ∈ collectSuggestions pl plen ws room →
      leadMatchFold false pl w = true ∧ plen < w.length := by
  intro ws
  induction ws with
  | nil => intro room w hw; simp [collectSuggestions] at hw
  | cons v rest ih =>
    intro room w hw
    unfold collectSuggestions at hw
    by_cases hm : (leadMatchFold false pl v && decide (plen < v.length)) = true
    · rw [if_pos hm] at hw
      obtain ⟨h1, h2⟩ : leadMatchFold false pl v = true ∧ plen < v.length := by simpa using hm
      by_cases hr : room ≤ 1
      · rw [if_pos hr] at hw
        rcases List.mem_singleton.mp hw with rfl
        exact ⟨h1, h2⟩
      · rw [if_neg hr] at hw
        rcases List.mem_cons.mp hw with rfl | hw
        · exact ⟨h1, h2⟩
        · exact ih _ _ hw
    · rw [if_neg hm] at hw
      exact ih _ _ hw

/-- C7 amended: a partial term shorter than 2 characters yields no
suggestions; otherwise up to `maxSuggestions` distinct suggestions are
returned in strictly increasing lexicographic order, and every suggestion
is a word token of some document's lowercased content that is strictly
longer than the partial term and has the lowercased partial term as a
literal prefix (the test is case-insensitive, not case-sensitive). -/
theorem suggestions_amended (docs : List Doc) (partialQuery : String) (maxSuggestions : Nat) :
    (partialQuery.toList.length < 2 →
        getSearchSuggestions docs partialQuery maxSuggestions = []) ∧
      (getSearchSuggestions docs partialQuery maxSuggestions).length ≤ maxSuggestions ∧
      List.Pairwise (fun a b : String => strLe a.toList b.toList = true ∧ a ≠ b)
        (getSearchSuggestions docs partialQuery maxSuggestions) ∧
      ∀ w ∈ getSearchSuggestions docs partialQuery maxSuggestions,
        leadMatchFold false (pyLowerL partialQuery.toList) w.toList = true ∧
          partialQuery.toList.length < w.toList.length ∧
          w.toList ∈ docs.flatMap (fun d => wordTokens (pyLowerL d.content.toList)) := by
  by_cases hpl : partialQuery.toList.length < 2
  · have he : getSearchSuggestions docs partialQuery maxSuggestions = [] := by
      unfold getSearchSuggestions
      exact if_pos hpl
    refine ⟨fun _ => he, ?_, ?_, ?_⟩ <;> simp [he]
  · have he : getSearchSuggestions docs partialQuery maxSuggestions =
        ((sortWords (collectSuggestions (pyLowerL partialQuery.toList)
              partialQuery.toList.length
              ((docs.flatMap (fun d => wordTokens (pyLowerL d.content.toList))).dedup)
              maxSuggestions)).take maxSuggestions).map String.mk := by
      unfold getSearchSuggestions
      rw [if_neg hpl]
    have hsub : List.Sublist
        (collectSuggestions (pyLowerL partialQuery.toList) partialQuery.toList.length
          ((docs.flatMap (fun d => wordTokens (pyLowerL d.content.toList))).dedup)
          maxSuggestions)
        ((docs.flatMap (fun d => wordTokens (pyLowerL d.content.toList))).dedup) :=
      collect_sublist _ _ _ _
    have hnodup : (sortWords (collectSuggestions (pyLowerL partialQuery.toList)
        partialQuery.toList.length
        ((docs.flatMap (fun d => wordTokens (pyLowerL d.content.toList))).dedup)
        maxSuggestions)).Nodup :=
      ((sortWords_perm _).nodup_iff).mpr (List.Nodup.sublist hsub (List.nodup_dedup _))
    refine ⟨fun hc => absurd hc hpl, ?_, ?_, ?_⟩
    · rw [he, List.length_map, List.length_take]
      exact Nat.min_le_left _ _
    · rw [he, List.pairwise_map]
      have hall : List.Pairwise (fun a b : List Char => strLe a b = true ∧ a ≠ b)
          ((sortWords (collectSuggestions (pyLowerL partialQuery.toList)
            partialQuery.toList.length
            ((docs.flatMap (fun d => wordTokens (pyLowerL d.content.toList))).dedup)
            maxSuggestions)).take maxSuggestions) :=
        List.Pairwise.sublist (List.take_sublist _ _)
          ((sortWords_pairwise _).and hnodup)
      exact hall.imp (fun h => ⟨h.1, fun he2 => h.2 (congrArg String.toList he2)⟩)
    · intro w hw
      rw [he] at hw
      rcases List.mem_map.mp hw with ⟨x, hx, rfl⟩
      have hx2 : x ∈ sortWords (collectSuggestions (pyLowerL partialQuery.toList)
          partialQuery.toList.length
          ((docs.flatMap (fun d => wordTokens (pyLowerL d.content.toList))).dedup)
          maxSuggestions) := (List.take_sublist _ _).subset hx
      have hx3 : x ∈ collectSuggestions (pyLowerL partialQuery.toList)
          partialQuery.toList.length
          ((docs.flatMap (fun d => wordTokens (pyLowerL d.content.toList))).dedup)
          maxSuggestions := (sortWords_perm _).subset hx2
      obtain ⟨hm1, hm2⟩ := collect_mem _ _ _ _ _ hx3
      have hx4 : x ∈ docs.flatMap (fun d => wordTokens (pyLowerL d.content.toList)) :=
        List.mem_dedup.mp (hsub.subset hx3)
      exact ⟨hm1, hm2, hx4⟩

theorem scoresE_total (cl : List Char) (ws : List (List Char)) :
    ∀ catKw : List (String × List String), (∀ p ∈ catKw, p.2 ≠ []) →
      categoryScoresE cl ws catKw =
        some (catKw.map (fun p => (p.1, rawScore cl ws p.2 / (p.2.length : ℚ)))) := by
  intro catKw
  induction catKw with
  | nil => intro _; rfl
  | cons p rest ih =>
    intro h
    have hp : p.2 ≠ [] := h p (List.mem_cons_self p rest)
    have hlen : ¬p.2.length = 0 := by simpa using hp
    unfold categoryScoresE
    rw [if_neg hlen, ih (fun q hq => h q (List.mem_cons_of_mem _ hq))]
    rfl

theorem foldlMax_split :
    ∀ (xs : List (String × ℚ)) (x : String × ℚ),
      ∃ l₁ l₂,
        x :: xs = l₁ ++ (xs.foldl (fun b y => if b.2 < y.2 then y else b) x) :: l₂ ∧
          (∀ p ∈ l₁, p.2 < (xs.foldl (fun b y => if b.2 < y.2 then y else b) x).2) ∧
          (∀ p ∈ l₂, p.2 ≤ (xs.foldl (fun b y => if b.2 < y.2 then y else b) x).2) := by
  intro xs
  induction xs using List.reverseRecOn with
  | nil => intro x; exact ⟨[], [], rfl, by simp, by simp⟩
  | append_singleton xs y ih =>
    intro x
    obtain ⟨l₁, l₂, heq, hlt, hle⟩ := ih x
    have hfold : (xs ++ [y]).foldl (fun b y => if b.2 < y.2 then y else b) x =
        (if (xs.foldl (fun b y => if b.2 < y.2 then y else b) x).2 < y.2 then y
          else xs.foldl (fun b y => if b.2 < y.2 then y else b) x) := by
      rw [List.foldl_append]
      rfl
    by_cases hby : (xs.foldl (fun b y => if b.2 < y.2 then y else b) x).2 < y.2
    · refine ⟨l₁ ++ (xs.foldl (fun b y => if b.2 < y.2 then y else b) x) :: l₂, [],
        ?_, ?_, by simp⟩
      · rw [hfold, if_pos hby, show x :: (xs ++ [y]) = (x :: xs) ++ [y] from rfl, heq]
      · intro p hp
        rw [hfold, if_pos hby]
        rcases List.mem_append.mp hp with hp | hp
        · exact lt_trans (hlt p hp) hby
        · rcases List.mem_cons.mp hp with rfl | hp
          · exact hby
          · exact lt_of_le_of_lt (hle p hp) hby
    · refine ⟨l₁, l₂ ++ [y], ?_, ?_, ?_⟩
      · rw [hfold, if_neg hby, show x :: (xs ++ [y]) = (x :: xs) ++ [y] from rfl, heq]
        simp
      · intro p hp
        rw [hfold, if_neg hby]
        exact hlt p hp
      · intro p hp
        rw [hfold, if_neg hby]
        rcases List.mem_append.mp hp with hp | hp
        · exact hle p hp
        · rcases List.mem_singleton.mp hp with rfl
          exact le_of_not_lt hby

theorem rawScore_eq_sum (cl : List Char) (ws : List (List Char)) :
    ∀ (kws : List String) (init : ℚ),
      kws.foldl (fun s kw =>
          (if ws.contains kw.toList then s + 1 else s) +
            (countOcc kw.toList cl : ℚ) * (1 / 2)) init =
        init + ((kws.map (fun kw =>
          (if ws.contains kw.toList then (1 : ℚ) else 0) +
            (countOcc kw.toList cl : ℚ) * (1 / 2))).sum) := by
  intro kws
  induction kws with
  | nil => intro init; simp
  | cons kw rest ih =>
    intro init
    rw [List.foldl_cons, ih, List.map_cons, List.sum_cons]
    by_cases h : ws.contains kw.toList = true
    · rw [if_pos h, if_pos h]
      ring
    · rw [if_neg h, if_neg h]
      ring

theorem rawScore_nonneg (cl : List Char) (ws : List (List Char)) (kws : List String) :
    0 ≤ rawScore cl ws kws := by
  unfold rawScore
  rw [rawScore_eq_sum, zero_add]
  apply List.sum_nonneg
  intro q hq
  rcases List.mem_map.mp hq with ⟨kw, _, rfl⟩
  have h1 : (0 : ℚ) ≤ if ws.contains kw.toList then (1 : ℚ) else 0 := by
    by_cases h : ws.contains kw.toList = true
    · rw [if_pos h]; norm_num
    · rw [if_neg h]
  have h2 : (0 : ℚ) ≤ (countOcc kw.toList cl : ℚ) * (1 / 2) :=
    mul_nonneg (Nat.cast_nonneg _) (by norm_num)
  exact add_nonneg h1 h2

theorem classifyByKeywords_eq (catKw : List (String × List String)) (content : String)
    (scores : List (String × ℚ))
    (hE : categoryScoresE (pyLowerL content.toList) (wordTokens (pyLowerL content.toList))
        catKw = some scores) :
    classifyByKeywords catKw content = some (pickBest scores) := by
  show Option.map pickBest
      (categoryScoresE (pyLowerL content.toList) (wordTokens (pyLowerL content.toList)) catKw) =
    some (pickBest scores)
  rw [hE]
  rfl

/-- C1: on non-empty, non-whitespace content, the classifier scores every
category as the claim's formula (sum over keywords of token-set presence
plus half the substring count, divided by the keyword-list length), and
returns the first category in registration order attaining the maximum
normalized score — strictly above everything registered before it, at
least everything after — unless that winning score is at most `0.1`, in
which case 'Other' is returned; and the computation never errors. -/
theorem classify_first_max (content : String) (h : pyStrip content.toList ≠ []) :
    ∃ l₁ c s l₂,
      builtinScores content = l₁ ++ (c, s) :: l₂ ∧
        (∀ p ∈ l₁, p.2 < s) ∧
        (∀ p ∈ l₂, p.2 ≤ s) ∧
        builtinScores content =
          builtinKeywords.map (fun p => (p.1, specNormScore content p.2)) ∧
        classifyDocument builtinKeywords content =
          some (if (1 : ℚ) / 10 < s then c else "Other") := by
  have hall : ∀ p ∈ builtinKeywords, p.2 ≠ [] := by decide
  have hbs : categoryScoresE (pyLowerL content.toList) (wordTokens (pyLowerL content.toList))
      builtinKeywords = some (builtinScores content) :=
    scoresE_total (pyLowerL content.toList) (wordTokens (pyLowerL content.toList))
      builtinKeywords hall
  have hspec : builtinScores content =
      builtinKeywords.map (fun p => (p.1, specNormScore content p.2)) := by
    apply List.map_congr_left
    intro p _
    have hr : rawScore (pyLowerL content.toList) (wordTokens (pyLowerL content.toList)) p.2 =
        (p.2.map (fun kw =>
          (if (wordTokens (pyLowerL content.toList)).contains kw.toList then (1 : ℚ) else 0) +
            (countOcc kw.toList (pyLowerL content.toList) : ℚ) * (1 / 2))).sum := by
      unfold rawScore
      rw [rawScore_eq_sum, zero_add]
    unfold specNormScore
    rw [hr]
  obtain ⟨k, krest, hbk⟩ : ∃ k krest, builtinKeywords = k :: krest := ⟨_, _, rfl⟩
  have hsc : builtinScores content =
      (k.1, rawScore (pyLowerL content.toList) (wordTokens (pyLowerL content.toList)) k.2 /
          (k.2.length : ℚ)) ::
        krest.map (fun p =>
          (p.1, rawScore (pyLowerL content.toList) (wordTokens (pyLowerL content.toList)) p.2 /
            (p.2.length : ℚ))) := by
    unfold builtinScores
    rw [hbk, List.map_cons]
  have hmain := classifyByKeywords_eq builtinKeywords content (builtinScores content) hbs
  have hd : classifyDocument builtinKeywords content =
      classifyByKeywords builtinKeywords content := by
    unfold classifyDocument
    rw [if_neg h]
  obtain ⟨l₁, l₂, heq, hlt, hle⟩ := foldlMax_split
    (krest.map (fun p =>
      (p.1, rawScore (pyLowerL content.toList) (wordTokens (pyLowerL content.toList)) p.2 /
        (p.2.length : ℚ))))
    ((k.1, rawScore (pyLowerL content.toList) (wordTokens (pyLowerL content.toList)) k.2 /
      (k.2.length : ℚ)))
  refine ⟨l₁,
    ((krest.map (fun p =>
        (p.1, rawScore (pyLowerL content.toList) (wordTokens (pyLowerL content.toList)) p.2 /
          (p.2.length : ℚ)))).foldl (fun b y => if b.2 < y.2 then y else b)
      ((k.1, rawScore (pyLowerL content.toList) (wordTokens (pyLowerL content.toList)) k.2 /
        (k.2.length : ℚ)))).1,
    ((krest.map (fun p =>
        (p.1, rawScore (pyLowerL content.toList) (wordTokens (pyLowerL content.toList)) p.2 /
          (p.2.length : ℚ)))).foldl (fun b y => if b.2 < y.2 then y else b)
      ((k.1, rawScore (pyLowerL content.toList) (wordTokens (pyLowerL content.toList)) k.2 /
        (k.2.length : ℚ)))).2,
    l₂, ?_, hlt, hle, hspec, ?_⟩
  · rw [hsc, Prod.mk.eta]
    exact heq
  · rw [hd, hmain, hsc]
    rfl

/-- Witness for `classify_first_max` at the content "business plan". -/
theorem classify_first_max_witness :
    ∃ l₁ c s l₂,
      builtinScores "business plan" = l₁ ++ (c, s) :: l₂ ∧
        (∀ p ∈ l₁, p.2 < s) ∧
        (∀ p ∈ l₂, p.2 ≤ s) ∧
        builtinScores "business plan" =
          builtinKeywords.map (fun p => (p.1, specNormScore "business plan" p.2)) ∧
        classifyDocument builtinKeywords "business plan" =
          some (if (1 : ℚ) / 10 < s then c else "Other") :=
  classify_first_max "business plan" (by decide)

/-- C8: the confidence scores are exactly the normalized scores that
keyword classification computes (the same `categoryScoresE` result),
each capped at `1.0`, and every confidence value lies in `[0, 1]`. -/
theorem confidence_spec (content : String) :
    categoryScoresE (pyLowerL content.toList) (wordTokens (pyLowerL content.toList))
        builtinKeywords = some (builtinScores content) ∧
      classificationConfidence builtinKeywords content =
        (builtinScores content).map (fun p => (p.1, min p.2 1)) ∧
      ∀ p ∈ classificationConfidence builtinKeywords content, 0 ≤ p.2 ∧ p.2 ≤ 1 := by
  have hall : ∀ p ∈ builtinKeywords, p.2 ≠ [] := by decide
  have hbs : categoryScoresE (pyLowerL content.toList) (wordTokens (pyLowerL content.toList))
      builtinKeywords = some (builtinScores content) :=
    scoresE_total (pyLowerL content.toList) (wordTokens (pyLowerL content.toList))
      builtinKeywords hall
  have h1 : classificationConfidence builtinKeywords content =
      (builtinScores content).map (fun p => (p.1, min p.2 1)) := by
    show builtinKeywords.map (fun p =>
        (p.1, min (if p.2.length = 0 then (0 : ℚ)
          else rawScore (pyLowerL content.toList) (wordTokens (pyLowerL content.toList)) p.2 /
            (p.2.length : ℚ)) 1)) =
      (builtinKeywords.map (fun p =>
        (p.1, rawScore (pyLowerL content.toList) (wordTokens (pyLowerL content.toList)) p.2 /
          (p.2.length : ℚ)))).map (fun p => (p.1, min p.2 1))
    rw [List.map_map]
    apply List.map_congr_left
    intro p hp
    have hne : ¬p.2.length = 0 := by simpa using hall p hp
    simp [Function.comp, hne]
  refine ⟨hbs, h1, ?_⟩
  intro p hp
  rw [h1] at hp
  rcases List.mem_map.mp hp with ⟨q, hq, rfl⟩
  refine ⟨le_min ?_ (by norm_num), min_le_right _ _⟩
  unfold builtinScores at hq
  rcases List.mem_map.mp hq with ⟨r, _, rfl⟩
  exact div_nonneg (rawScore_nonneg _ _ _) (Nat.cast_nonneg _)

/-- C10: when every registered keyword list is non-empty — true of all 34
built-in categories — classification completes on every content string
(the division by a keyword-list length never divides by zero).  The
precondition is necessary: `add_category_keywords` can register a
category with an empty keyword list, after which classification of any
non-whitespace content reaches the division's error case, while
`classification_confidence` guards the empty list and scores it `0`. -/
theorem classify_total_nonempty (catKw : List (String × List String))
    (h : ∀ p ∈ catKw, p.2 ≠ []) (content : String) :
    (classifyDocument catKw content).isSome = true ∧
      (∀ p ∈ builtinKeywords, p.2 ≠ []) ∧
      (addCategoryKeywords builtinState "Recipes" []).categoryKeywords =
        builtinKeywords ++ [("Recipes", [])] ∧
      classifyDocument (builtinKeywords ++ [("Recipes", [])]) "hello world" = none ∧
      (classificationConfidence (builtinKeywords ++ [("Recipes", [])]) "hello world").lookup
        "Recipes" = some 0 := by
  refine ⟨?_, by decide, by decide, by decide, by decide⟩
  unfold classifyDocument
  by_cases hs : pyStrip content.toList = []
  · rw [if_pos hs]
    rfl
  · rw [if_neg hs]
    rw [classifyByKeywords_eq catKw content _
      (scoresE_total (pyLowerL content.toList) (wordTokens (pyLowerL content.toList)) catKw h)]
    rfl

/-- Witness for `classify_total_nonempty` on the built-in table and the
content "hello world". -/
theorem classify_total_witness :
    (classifyDocument builtinKeywords "hello world").isSome = true ∧
      (∀ p ∈ builtinKeywords, p.2 ≠ []) ∧
      (addCategoryKeywords builtinState "Recipes" []).categoryKeywords =
        builtinKeywords ++ [("Recipes", [])] ∧
      classifyDocument (builtinKeywords ++ [("Recipes", [])]) "hello world" = none ∧
      (classificationConfidence (builtinKeywords ++ [("Recipes", [])]) "hello world").lookup
        "Recipes" = some 0 :=
  classify_total_nonempty builtinKeywords (by decide) "hello world"

theorem getElem?_at_len {α : Type} (l₁ l₂ : List α) (a : α) (n : Nat) (h : l₁.length = n) :
    (l₁ ++ a :: l₂)[n]? = some a := by
  rw [List.getElem?_append_right (by omega)]
  rw [show n - l₁.length = 0 from by omega]
  exact List.getElem?_cons_zero

theorem punctGet (l₁ l₂ : List Char) (c : Char) (n : Nat) (h : l₁.length = n) :
    punctAt (l₁ ++ c :: l₂) n = isSentEnd c := by
  unfold punctAt
  rw [List.getD_eq_getElem?_getD, getElem?_at_len l₁ l₂ c n h]
  have hlt : n < (l₁ ++ c :: l₂).length := by
    rw [List.length_append, List.length_cons]
    omega
  rw [decide_eq_true hlt, Option.getD_some]
  exact Bool.true_and _

theorem pyStrip_cons_space (l : List Char) : pyStrip (' ' :: l) = pyStrip l := by
  unfold pyStrip
  rw [List.dropWhile_cons, if_pos (show pyIsSpace ' ' = true from rfl)]

theorem pyStrip_sandwich (a b : Char) (l : List Char) (ha : pyIsSpace a = false)
    (hb : pyIsSpace b = false) : pyStrip (a :: (l ++ [b])) = a :: (l ++ [b]) := by
  unfold pyStrip
  rw [List.dropWhile_cons, if_neg (by simp [ha])]
  rw [show (a :: (l ++ [b])).reverse = b :: (l.reverse ++ [a]) from by simp]
  rw [List.dropWhile_cons, if_neg (by simp [hb])]
  simp

theorem c6shape1 : c6content1.toList =
    (List.replicate 1400 'a' ++ '.' :: List.replicate 98 'a') ++ '.' :: List.replicate 200 'a' := rfl

theorem c6shape2 : c6content2.toList =
    ((' ' :: List.replicate 1399 'a') ++ '.' :: List.replicate 99 'a') ++ '.' :: List.replicate 199 'a' := rfl

theorem c6len1 : c6content1.toList.length = 1700 := by
  rw [c6shape1, List.length_append, List.length_append, List.length_cons, List.length_cons,
    List.length_replicate, List.length_replicate, List.length_replicate]

theorem c6len2 : c6content2.toList.length = 1700 := by
  rw [c6shape2, List.length_append, List.length_append, List.length_cons, List.length_cons,
    List.length_cons, List.length_replicate, List.length_replicate, List.length_replicate]

theorem c6p1_1400 : punctAt c6content1.toList 1400 = true := by
  have e : c6content1.toList =
      List.replicate 1400 'a' ++ ('.' :: (List.replicate 98 'a' ++ '.' :: List.replicate 200 'a')) := by
    rw [c6shape1]; simp only [List.append_assoc, List.cons_append]
  rw [e, punctGet (List.replicate 1400 'a') _ '.' 1400 (by rw [List.length_replicate])]
  rfl

theorem c6p1_1499 : punctAt c6content1.toList 1499 = true := by
  rw [c6shape1,
    punctGet (List.replicate 1400 'a' ++ '.' :: List.replicate 98 'a') _ '.' 1499
      (by rw [List.length_append, List.length_cons, List.length_replicate, List.length_replicate])]
  rfl

theorem c6p1_1500 : punctAt c6content1.toList 1500 = false := by
  have e : c6content1.toList =
      ((List.replicate 1400 'a' ++ '.' :: List.replicate 98 'a') ++ ['.']) ++
        'a' :: List.replicate 199 'a' := by
    rw [c6shape1, show List.replicate 200 'a' = 'a' :: List.replicate 199 'a' from rfl]
    simp only [List.append_assoc, List.cons_append, List.nil_append]
  rw [e, punctGet _ _ 'a' 1500
    (by rw [List.length_append, List.length_append, List.length_cons, List.length_cons,
      List.length_nil, List.length_replicate, List.length_replicate])]
  rfl

theorem c6p2_1400 : punctAt c6content2.toList 1400 = true := by
  have e : c6content2.toList =
      (' ' :: List.replicate 1399 'a') ++
        ('.' :: (List.replicate 99 'a' ++ '.' :: List.replicate 199 'a')) := by
    rw [c6shape2]; simp only [List.append_assoc, List.cons_append]
  rw [e, punctGet (' ' :: List.replicate 1399 'a') _ '.' 1400
    (by rw [List.length_cons, List.length_replicate])]
  rfl

theorem c6p2_1500 : punctAt c6content2.toList 1500 = true := by
  rw [c6shape2,
    punctGet ((' ' :: List.replicate 1399 'a') ++ '.' :: List.replicate 99 'a') _ '.' 1500
      (by rw [List.length_append, List.length_cons, List.length_cons, List.length_replicate,
        List.length_replicate])]
  rfl

theorem c6break1 : truncBreak c6content1.toList 1500 = 1401 := by
  unfold truncBreak
  rw [show natRange (1500 - 100) 200 = 1400 :: natRange 1401 199 from rfl,
    List.find?_cons_of_pos _ c6p1_1400]

theorem c6break2 : truncBreak c6content2.toList 1500 = 1401 := by
  unfold truncBreak
  rw [show natRange (1500 - 100) 200 = 1400 :: natRange 1401 199 from rfl,
    List.find?_cons_of_pos _ c6p2_1400]

theorem c6near1 : nearestPunct c6content1.toList 1500 = some 1499 := by
  unfold nearestPunct
  rw [show natRange 0 101 = 0 :: 1 :: natRange 2 99 from rfl,
    List.findSome?_cons, List.findSome?_cons]
  rw [show (1500 : Nat) - 0 = 1500 from rfl, show (1500 : Nat) + 0 = 1500 from rfl,
    c6p1_1500,
    if_neg (show ¬ (false = true) from by decide),
    if_neg (show ¬ (false = true) from by decide),
    show (1500 : Nat) - 1 = 1499 from rfl, c6p1_1499,
    if_pos (show true = true from rfl)]

theorem c6near2 : nearestPunct c6content2.toList 1500 = some 1500 := by
  unfold nearestPunct
  rw [show natRange 0 101 = 0 :: natRange 1 100 from rfl, List.findSome?_cons]
  rw [show (1500 : Nat) - 0 = 1500 from rfl, c6p2_1500, if_pos (show true = true from rfl)]

theorem c6take1 : c6content1.toList.take 1401 = 'a' :: (List.replicate 1399 'a' ++ ['.']) := by
  have e : c6content1.toList =
      ('a' :: (List.replicate 1399 'a' ++ ['.'])) ++
        (List.replicate 98 'a' ++ '.' :: List.replicate 200 'a') := by
    rw [c6shape1, show List.replicate 1400 'a' = 'a' :: List.replicate 1399 'a' from rfl]
    simp only [List.append_assoc, List.cons_append, List.nil_append]
  rw [e, List.take_left' (by rw [List.length_cons, List.length_append, List.length_cons,
    List.length_nil, List.length_replicate])]

theorem c6take1s : c6content1.toList.take 1500 =
    (List.replicate 1400 'a' ++ '.' :: List.replicate 98 'a') ++ ['.'] := by
  have e : c6content1.toList =
      ((List.replicate 1400 'a' ++ '.' :: List.replicate 98 'a') ++ ['.']) ++
        'a' :: List.replicate 199 'a' := by
    rw [c6shape1, show List.replicate 200 'a' = 'a' :: List.replicate 199 'a' from rfl]
    simp only [List.append_assoc, List.cons_append, List.nil_append]
  rw [e, List.take_left' (by rw [List.length_append, List.length_append, List.length_cons,
    List.length_cons, List.length_nil, List.length_replicate, List.length_replicate])]

theorem c6take2 : c6content2.toList.take 1401 = ' ' :: (List.replicate 1399 'a' ++ ['.']) := by
  have e : c6content2.toList =
      (' ' :: (List.replicate 1399 'a' ++ ['.'])) ++
        (List.replicate 99 'a' ++ '.' :: List.replicate 199 'a') := by
    rw [c6shape2]
    simp only [List.append_assoc, List.cons_append, List.nil_append]
  rw [e, List.take_left' (by rw [List.length_cons, List.length_append, List.length_cons,
    List.length_nil, List.length_replicate])]

theorem c6take2s : c6content2.toList.take 1501 =
    ((' ' :: List.replicate 1399 'a') ++ '.' :: List.replicate 99 'a') ++ ['.'] := by
  have e : c6content2.toList =
      (((' ' :: List.replicate 1399 'a') ++ '.' :: List.replicate 99 'a') ++ ['.']) ++
        List.replicate 199 'a' := by
    rw [c6shape2]
    simp only [List.append_assoc, List.cons_append, List.nil_append]
  rw [e, List.take_left' (by rw [List.length_append, List.length_append, List.length_cons,
    List.length_cons, List.length_cons, List.length_nil, List.length_replicate,
    List.length_replicate])]

theorem c6strip1 : pyStrip ('a' :: (List.replicate 1399 'a' ++ ['.'])) =
    'a' :: (List.replicate 1399 'a' ++ ['.']) :=
  pyStrip_sandwich 'a' '.' (List.replicate 1399 'a') rfl rfl

theorem c6strip2 : pyStrip (' ' :: (List.replicate 1399 'a' ++ ['.'])) =
    'a' :: (List.replicate 1398 'a' ++ ['.']) := by
  rw [pyStrip_cons_space,
    show List.replicate 1399 'a' ++ ['.'] = 'a' :: (List.replicate 1398 'a' ++ ['.']) from rfl,
    pyStrip_sandwich 'a' '.' (List.replicate 1398 'a') rfl rfl]

theorem truncNearest_some (content : String) (m i : Nat)
    (hm : m < content.toList.length) (h : nearestPunct content.toList m = some i)
    (hi : i + 1 < content.toList.length) :
    truncNearestSpecC6 content m = String.mk (content.toList.take (i + 1) ++ "...".toList) := by
  unfold truncNearestSpecC6
  rw [if_neg (Nat.not_le.mpr hm), h]
  show (if i + 1 < content.toList.length then
      String.mk (content.toList.take (i + 1) ++ "...".toList)
    else String.mk (content.toList.take (i + 1))) = _
  rw [if_pos hi]

theorem c6code1 : truncateContent c6content1 1500 =
    String.mk (('a' :: (List.replicate 1399 'a' ++ ['.'])) ++ "...".toList) := by
  show (if c6content1.toList.length ≤ 1500 then c6content1
    else if truncBreak c6content1.toList 1500 < c6content1.toList.length then
      String.mk (pyStrip (c6content1.toList.take (truncBreak c6content1.toList 1500)) ++ "...".toList)
    else String.mk (pyStrip (c6content1.toList.take (truncBreak c6content1.toList 1500)))) = _
  rw [c6len1, c6break1, if_neg (by decide), if_pos (by decide), c6take1, c6strip1]

theorem c6code2 : truncateContent c6content2 1500 =
    String.mk (('a' :: (List.replicate 1398 'a' ++ ['.'])) ++ "...".toList) := by
  show (if c6content2.toList.length ≤ 1500 then c6content2
    else if truncBreak c6content2.toList 1500 < c6content2.toList.length then
      String.mk (pyStrip (c6content2.toList.take (truncBreak c6content2.toList 1500)) ++ "...".toList)
    else String.mk (pyStrip (c6content2.toList.take (truncBreak c6content2.toList 1500)))) = _
  rw [c6len2, c6break2, if_neg (by decide), if_pos (by decide), c6take2, c6strip2]

theorem c6spec1 : truncNearestSpecC6 c6content1 1500 =
    String.mk (((List.replicate 1400 'a' ++ '.' :: List.replicate 98 'a') ++ ['.']) ++ "...".toList) := by
  rw [truncNearest_some c6content1 1500 1499 (by rw [c6len1]; decide) c6near1 (by rw [c6len1]; decide)]
  rw [show (1499 : Nat) + 1 = 1500 from rfl, c6take1s]

theorem c6spec2 : truncNearestSpecC6 c6content2 1500 =
    String.mk ((((' ' :: List.replicate 1399 'a') ++ '.' :: List.replicate 99 'a') ++ ['.']) ++
      "...".toList) := by
  rw [truncNearest_some c6content2 1500 1500 (by rw [c6len2]; decide) c6near2 (by rw [c6len2]; decide)]
  rw [show (1500 : Nat) + 1 = 1501 from rfl, c6take2s]

theorem c6codelen1 : (truncateContent c6content1 1500).toList.length = 1404 := by
  rw [c6code1]
  show (('a' :: (List.replicate 1399 'a' ++ ['.'])) ++ ['.', '.', '.']).length = 1404
  rw [List.length_append, List.length_cons, List.length_append, List.length_cons,
    List.length_nil, List.length_replicate]
  rfl

theorem c6speclen1 : (truncNearestSpecC6 c6content1 1500).toList.length = 1503 := by
  rw [c6spec1]
  show (((List.replicate 1400 'a' ++ '.' :: List.replicate 98 'a') ++ ['.']) ++
    ['.', '.', '.']).length = 1503
  rw [List.length_append, List.length_append, List.length_append, List.length_cons,
    List.length_cons, List.length_nil, List.length_replicate, List.length_replicate]
  rfl

theorem c6codehead2 : (truncateContent c6content2 1500).toList.head? = some 'a' := by
  rw [c6code2]; rfl

theorem c6spechead2 : (truncNearestSpecC6 c6content2 1500).toList.head? = some ' ' := by
  rw [c6spec2]; rfl

/-- C6 counterexample to the claim's nearest-sentence-end cut: on content with
sentence ends at indices 1400 and 1499 and boundary 1500 the code cuts after
index 1400 (the first found scanning up from 1400), not after 1499 (the one
nearest the boundary); and on content opening with a space the code's cut
prefix loses that space to `strip()` while the claim's cut keeps it. -/
theorem truncate_nearest_cex :
    truncateContent c6content1 1500 ≠ truncNearestSpecC6 c6content1 1500 ∧
      truncateContent c6content2 1500 ≠ truncNearestSpecC6 c6content2 1500 ∧
      (truncateContent c6content2 1500).toList.head? = some 'a' ∧
      (truncNearestSpecC6 c6content2 1500).toList.head? = some ' ' := by
  refine ⟨?_, ?_, c6codehead2, c6spechead2⟩
  · intro h
    have h2 : (1404 : Nat) = 1503 := by rw [← c6codelen1, ← c6speclen1, h]
    exact absurd h2 (by decide)
  · intro h
    have h2 : some 'a' = some ' ' := by rw [← c6codehead2, ← c6spechead2, h]
    exact absurd h2 (by decide)
